import Mathlib

/-!
Verification of the blogicum blog application (src/blogicum/blog/views.py
and src/blogicum/blog/forms.py) against its design specification.

The Django views are shallowly embedded: the database is a list of posts,
comments, categories and users; timestamps are integers (all stored
timestamps are timezone-aware, hence totally comparable); each view
handler becomes a function from the request data (viewer identity, URL
kwargs, form data) and the database to a result value, paired with the
database state after the request where the handler mutates it.
-/

namespace Blogicum

/-- Category model: named grouping with a published flag and a slug. -/
structure Category where
  id : Nat
  slug : String
  is_published : Bool
deriving DecidableEq

/-- Post model: the fields the views consult (title stands for the
content fields the form edits; image/location/text are analogous). -/
structure Post where
  id : Nat
  author : Nat
  title : String
  pub_date : Int
  is_published : Bool
  category : Category
deriving DecidableEq

/-- Comment model: body text, author reference, parent post reference. -/
structure Comment where
  id : Nat
  author : Nat
  postId : Nat
  text : String
deriving DecidableEq

/-- User profile row, looked up by username in the profile view. -/
structure User where
  id : Nat
  username : String
deriving DecidableEq

/-- The requesting user: Django's request.user is either the anonymous
user or an authenticated user (id, username, staff flag). -/
inductive Viewer where
  | anon
  | auth (userId : Nat) (username : String) (staff : Bool)
deriving DecidableEq

/-- Equality test request.user == u for a stored user id: the anonymous
user never equals a database user. -/
def Viewer.isUser : Viewer → Nat → Bool
  | .anon, _ => false
  | .auth uid _ _, u => uid == u

/-- request.user.is_authenticated. -/
def Viewer.is_authenticated : Viewer → Bool
  | .anon => false
  | .auth _ _ _ => true

/-- The visibility filter of views.py: pub_date__lte=now,
is_published=True, category__is_published=True. -/
def isVisible (now : Int) (p : Post) : Bool :=
  decide (p.pub_date ≤ now) && p.is_published && p.category.is_published

/-- A post annotated with its comment count (the annotate(Count) of
get_comment_count_queryset). -/
structure AnnotatedPost where
  post : Post
  comment_count : Nat
deriving DecidableEq

/-- get_comment_count_queryset: annotate each post with the number of
comments whose parent is that post. -/
def get_comment_count_queryset (comments : List Comment) (posts : List Post) :
    List AnnotatedPost :=
  posts.map (fun p => ⟨p, (comments.filter (fun c => c.postId == p.id)).length⟩)

/-- Insert an element into a list sorted by descending key, keeping the
descending order (embeds the ordering step of order_by with a leading
minus sign). -/
def insertDescBy {α : Type} (key : α → Int) (p : α) : List α → List α
  | [] => [p]
  | q :: qs => if key q < key p then p :: q :: qs else q :: insertDescBy key p qs

/-- order_by descending on an integer key (insertion sort). -/
def order_by_desc {α : Type} (key : α → Int) : List α → List α
  | [] => []
  | p :: ps => insertDescBy key p (order_by_desc key ps)

/-- PostsListsMixin.get_queryset: filter by the three visibility
criteria, annotate with comment counts, order by pub_date descending.
The viewer is not consulted. -/
def postsListsMixin_get_queryset (db : List Post) (comments : List Comment)
    (now : Int) : List AnnotatedPost :=
  order_by_desc (fun a => a.post.pub_date)
    (get_comment_count_queryset comments (db.filter (fun p => isVisible now p)))

/-- CategoryListView.get_queryset: get_object_or_404 of a published
category by slug (none models the Http404), then the mixin queryset
restricted to that category, re-ordered by pub_date descending. -/
def categoryListView_get_queryset (db : List Post) (comments : List Comment)
    (cats : List Category) (slug : String) (now : Int) :
    Option (List AnnotatedPost) :=
  match cats.find? (fun c => c.slug == slug && c.is_published) with
  | none => none
  | some category =>
      some (order_by_desc (fun a => a.post.pub_date)
        ((postsListsMixin_get_queryset db comments now).filter
          (fun a => a.post.category == category)))

/-- UserDetailView: get_object_or_404 of the user by username, then the
page_obj posts of get_context_data: all the profile owner's posts when
the viewer is that user, otherwise the owner's posts passing the three
visibility criteria; annotated and ordered by pub_date descending. -/
def userDetailView_posts (users : List User) (db : List Post)
    (comments : List Comment) (viewer : Viewer) (username : String)
    (now : Int) : Option (List AnnotatedPost) :=
  match users.find? (fun u => u.username == username) with
  | none => none
  | some profile =>
      let posts :=
        if viewer.isUser profile.id then
          db.filter (fun p => p.author == profile.id)
        else
          db.filter (fun p =>
            p.author == profile.id && p.is_published
              && decide (p.pub_date ≤ now) && p.category.is_published)
      some (order_by_desc (fun a => a.post.pub_date)
        (get_comment_count_queryset comments posts))

/-- Result of the post detail view. -/
inductive DetailResult where
  | notFound
  | found (p : Post)
deriving DecidableEq

/-- PostDetailView.get_object: get_object_or_404 by pk, then if the
viewer is not the author and any visibility criterion fails, Http404;
otherwise the post. -/
def postDetailView_get_object (db : List Post) (viewer : Viewer)
    (post_id : Nat) (now : Int) : DetailResult :=
  match db.find? (fun p => p.id == post_id) with
  | none => .notFound
  | some post =>
      if !(viewer.isUser post.author) then
        if decide (now < post.pub_date) || !post.is_published
            || !post.category.is_published then
          .notFound
        else .found post
      else .found post

/-- A redirect target produced by reverse(...). -/
inductive Url where
  | profile (username : String)
  | post_detail (post_id : Nat)
deriving DecidableEq

/-- Whether a URL is some user's profile page. -/
def Url.isProfile : Url → Bool
  | .profile _ => true
  | .post_detail _ => false

/-- Outcome of a mutating view: the login redirect of
LoginRequiredMixin, an Http404, a non-success redirect, or success with
the success_url. -/
inductive ViewResult where
  | redirectLogin
  | notFound
  | redirect (u : Url)
  | success (u : Url)
deriving DecidableEq

/-- The data of PostForm that an update writes into the instance
(author and pk are not form fields and stay unchanged). -/
structure PostFormData where
  title : String
  pub_date : Int
  is_published : Bool
  category : Category
deriving DecidableEq

/-- Binding PostForm data to a model instance. -/
def applyPostForm (fd : PostFormData) (p : Post) : Post :=
  { p with title := fd.title, pub_date := fd.pub_date,
           is_published := fd.is_published, category := fd.category }

/-- PostCreateView: LoginRequiredMixin, form_valid sets author :=
request.user, success_url is the requesting user's profile. p0 is the
form's instance before the author is set; new rows get its id. -/
def postCreateView (db : List Post) (viewer : Viewer) (p0 : Post) :
    ViewResult × List Post :=
  match viewer with
  | .anon => (.redirectLogin, db)
  | .auth uid uname _ =>
      (.success (.profile uname), db ++ [{ p0 with author := uid }])

/-- PostUpdateView: dispatch redirects unauthenticated users to the
post detail page; get_object_or_404 by pk; form_valid redirects to the
post detail page when the instance's author is not the requesting user,
otherwise saves and redirects to the requesting user's profile. -/
def postUpdateView (db : List Post) (viewer : Viewer) (post_id : Nat)
    (fd : PostFormData) : ViewResult × List Post :=
  match viewer with
  | .anon => (.redirect (.post_detail post_id), db)
  | .auth uid uname _ =>
      match db.find? (fun p => p.id == post_id) with
      | none => (.notFound, db)
      | some post =>
          if post.author != uid then (.redirect (.post_detail post_id), db)
          else (.success (.profile uname),
                db.map (fun p => if p.id == post_id then applyPostForm fd p else p))

/-- PostDeleteView: LoginRequiredMixin; get_object raises Http404 when
the requesting user is neither the author nor staff; success_url is the
requesting user's profile. -/
def postDeleteView (db : List Post) (viewer : Viewer) (post_id : Nat) :
    ViewResult × List Post :=
  match viewer with
  | .anon => (.redirectLogin, db)
  | .auth uid uname staff =>
      match db.find? (fun p => p.id == post_id) with
      | none => (.notFound, db)
      | some post =>
          if post.author != uid && !staff then (.notFound, db)
          else (.success (.profile uname),
                db.filter (fun p => p.id != post_id))

/-- CommentMixin.get_post: get_object_or_404 of the post_id kwarg. -/
def commentMixin_get_post (db : List Post) (post_id : Nat) : Option Post :=
  db.find? (fun p => p.id == post_id)

/-- EditCommentMixin.get_object: get_object_or_404 of the comment by
pk, Http404 when the requesting user is not the comment's author. -/
def editCommentMixin_get_object (comments : List Comment) (uid : Nat)
    (comment_id : Nat) : Option Comment :=
  match comments.find? (fun c => c.id == comment_id) with
  | none => none
  | some c => if c.author != uid then none else some c

/-- CommentCreateView: LoginRequiredMixin; form_valid sets author :=
request.user and post := get_post(); success_url is the post's detail
page. new_id is the database-assigned primary key. -/
def commentCreateView (db : List Post) (comments : List Comment)
    (viewer : Viewer) (post_id : Nat) (text : String) (new_id : Nat) :
    ViewResult × List Comment :=
  match viewer with
  | .anon => (.redirectLogin, comments)
  | .auth uid _ _ =>
      match commentMixin_get_post db post_id with
      | none => (.notFound, comments)
      | some post =>
          (.success (.post_detail post.id),
           comments ++ [⟨new_id, uid, post.id, text⟩])

/-- CommentUpdateView: LoginRequiredMixin, EditCommentMixin.get_object,
then save and the CommentMixin success_url (post detail; get_post can
itself 404 after the save when the post_id kwarg is unknown). -/
def commentUpdateView (db : List Post) (comments : List Comment)
    (viewer : Viewer) (post_id : Nat) (comment_id : Nat) (text : String) :
    ViewResult × List Comment :=
  match viewer with
  | .anon => (.redirectLogin, comments)
  | .auth uid _ _ =>
      match editCommentMixin_get_object comments uid comment_id with
      | none => (.notFound, comments)
      | some _ =>
          let saved := comments.map (fun d =>
            if d.id == comment_id then { d with text := text } else d)
          match commentMixin_get_post db post_id with
          | none => (.notFound, saved)
          | some post => (.success (.post_detail post.id), saved)

/-- CommentDeleteView: LoginRequiredMixin, EditCommentMixin.get_object,
then the CommentMixin success_url and the delete. DeleteView resolves
the success URL before deleting, so an unknown post_id kwarg 404s with
the comment still intact. -/
def commentDeleteView (db : List Post) (comments : List Comment)
    (viewer : Viewer) (post_id : Nat) (comment_id : Nat) :
    ViewResult × List Comment :=
  match viewer with
  | .anon => (.redirectLogin, comments)
  | .auth uid _ _ =>
      match editCommentMixin_get_object comments uid comment_id with
      | none => (.notFound, comments)
      | some _ =>
          match commentMixin_get_post db post_id with
          | none => (.notFound, comments)
          | some post =>
              (.success (.post_detail post.id),
               comments.filter (fun d => d.id != comment_id))

/-- A datetime value as the form sees it: a timestamp plus an optional
UTC offset; aware means the offset is present. -/
structure DateTime where
  value : Int
  tz : Option Int
deriving DecidableEq

/-- timezone.is_aware. -/
def is_aware (t : DateTime) : Bool := t.tz.isSome

/-- timezone.make_aware with an explicit timezone. -/
def make_aware (t : DateTime) (z : Int) : DateTime := { t with tz := some z }

/-- PostForm.clean_pub_date: a missing value passes through; a naive
value is made aware in the default timezone (passed in as defaultTz);
an aware value is returned unchanged. -/
def clean_pub_date (defaultTz : Int) : Option DateTime → Option DateTime
  | none => none
  | some t => if is_aware t then some t else some (make_aware t defaultTz)

/-! Shared lemmas about the ordering and annotation helpers. -/

theorem mem_insertDescBy {α : Type} (key : α → Int) (p x : α) (l : List α) :
    x ∈ insertDescBy key p l ↔ x = p ∨ x ∈ l := by
  induction l with
  | nil => simp [insertDescBy]
  | cons q qs ih =>
    rw [insertDescBy]
    by_cases hkey : key q < key p
    · simp only [if_pos hkey, List.mem_cons]
    · simp only [if_neg hkey, List.mem_cons, ih]
      tauto

theorem mem_order_by_desc {α : Type} (key : α → Int) (x : α) (l : List α) :
    x ∈ order_by_desc key l ↔ x ∈ l := by
  induction l with
  | nil => simp [order_by_desc]
  | cons p ps ih =>
    rw [order_by_desc]
    simp [mem_insertDescBy, ih]

theorem pairwise_insertDescBy {α : Type} (key : α → Int) (p : α) (l : List α)
    (h : l.Pairwise (fun a b => key b ≤ key a)) :
    (insertDescBy key p l).Pairwise (fun a b => key b ≤ key a) := by
  induction l with
  | nil => simp [insertDescBy]
  | cons q qs ih =>
    rw [List.pairwise_cons] at h
    rw [insertDescBy]
    by_cases hkey : key q < key p
    · rw [if_pos hkey, List.pairwise_cons]
      refine ⟨fun x hx => ?_, List.pairwise_cons.mpr h⟩
      rcases List.mem_cons.mp hx with rfl | hx
      · exact le_of_lt hkey
      · exact le_trans (h.1 x hx) (le_of_lt hkey)
    · rw [if_neg hkey, List.pairwise_cons]
      refine ⟨fun x hx => ?_, ih h.2⟩
      rcases (mem_insertDescBy key p x qs).mp hx with rfl | hx
      · exact le_of_not_lt hkey
      · exact h.1 x hx

theorem pairwise_order_by_desc {α : Type} (key : α → Int) (l : List α) :
    (order_by_desc key l).Pairwise (fun a b => key b ≤ key a) := by
  induction l with
  | nil => simp [order_by_desc]
  | cons p ps ih => exact pairwise_insertDescBy key p _ ih

theorem chain_order_by_desc {α : Type} (key : α → Int) (l : List α) :
    List.Chain' (fun a b => key b ≤ key a) (order_by_desc key l) :=
  (pairwise_order_by_desc key l).chain'

theorem annotate_map_post (comments : List Comment) (posts : List Post) :
    (get_comment_count_queryset comments posts).map AnnotatedPost.post = posts := by
  induction posts with
  | nil => rfl
  | cons p ps ih =>
    simpa [get_comment_count_queryset] using ih

theorem mem_order_annotate (comments : List Comment) (posts : List Post)
    (p : Post) :
    p ∈ (order_by_desc (fun a => a.post.pub_date)
        (get_comment_count_queryset comments posts)).map AnnotatedPost.post
      ↔ p ∈ posts := by
  simp [List.mem_map, mem_order_by_desc, get_comment_count_queryset]

theorem mem_listing_iff (db : List Post) (comments : List Comment) (now : Int)
    (p : Post) :
    p ∈ (postsListsMixin_get_queryset db comments now).map AnnotatedPost.post
      ↔ p ∈ db ∧ isVisible now p = true := by
  unfold postsListsMixin_get_queryset
  rw [mem_order_annotate]
  simp [List.mem_filter]

theorem mem_mixin_ann (db : List Post) (comments : List Comment) (now : Int)
    (a : AnnotatedPost) :
    a ∈ postsListsMixin_get_queryset db comments now
      ↔ a.post ∈ db ∧ isVisible now a.post = true
        ∧ a.comment_count
            = (comments.filter (fun c => c.postId == a.post.id)).length := by
  obtain ⟨ap, ac⟩ := a
  unfold postsListsMixin_get_queryset get_comment_count_queryset
  rw [mem_order_by_desc]
  simp only [List.mem_map, List.mem_filter, AnnotatedPost.mk.injEq]
  constructor
  · rintro ⟨q, ⟨hdb, hvis⟩, rfl, rfl⟩
    exact ⟨hdb, hvis, rfl⟩
  · rintro ⟨hdb, hvis, rfl⟩
    exact ⟨ap, ⟨hdb, hvis⟩, rfl, rfl⟩

theorem detail_cond_eq (now : Int) (p : Post) :
    (decide (now < p.pub_date) || !p.is_published || !p.category.is_published)
      = !(isVisible now p) := by
  unfold isVisible
  by_cases hle : p.pub_date ≤ now
  · have h2 : ¬ now < p.pub_date := not_lt.mpr hle
    cases p.is_published <;> cases p.category.is_published <;> simp [hle, h2]
  · have h2 : now < p.pub_date := not_le.mp hle
    cases p.is_published <;> cases p.category.is_published <;> simp [hle, h2]

theorem mem_category_iff (db : List Post) (comments : List Comment)
    (now : Int) (cats : List Category) (slug : String) (c : Category)
    (hc : cats.find? (fun d => d.slug == slug && d.is_published) = some c)
    (p : Post) (qs : List AnnotatedPost)
    (hq : categoryListView_get_queryset db comments cats slug now
      = some qs) :
    p ∈ qs.map AnnotatedPost.post
      ↔ (p ∈ db ∧ isVisible now p = true) ∧ p.category = c := by
  have hcq : categoryListView_get_queryset db comments cats slug now
      = some (order_by_desc (fun a => a.post.pub_date)
          ((postsListsMixin_get_queryset db comments now).filter
            (fun a => a.post.category == c))) := by
    unfold categoryListView_get_queryset
    rw [hc]
  rw [hcq] at hq
  have hqs := Option.some.inj hq
  subst hqs
  simp only [List.mem_map, mem_order_by_desc, List.mem_filter, mem_mixin_ann]
  constructor
  · rintro ⟨a, ⟨⟨hdb, hvis, _⟩, hcat⟩, rfl⟩
    exact ⟨⟨hdb, hvis⟩, by simpa using hcat⟩
  · rintro ⟨⟨hdb, hvis⟩, hcat⟩
    exact ⟨⟨p, (comments.filter (fun d => d.postId == p.id)).length⟩,
      ⟨⟨hdb, hvis, rfl⟩, by simp [hcat]⟩, rfl⟩

theorem postDetailView_eq (db : List Post) (viewer : Viewer) (post_id : Nat)
    (now : Int) (post : Post)
    (hfind : db.find? (fun p => p.id == post_id) = some post) :
    postDetailView_get_object db viewer post_id now
      = if !(viewer.isUser post.author) then
          (if decide (now < post.pub_date) || !post.is_published
              || !post.category.is_published then
            DetailResult.notFound
          else DetailResult.found post)
        else DetailResult.found post := by
  unfold postDetailView_get_object
  rw [hfind]

/-! Concrete fixtures used by witnesses and counterexamples. -/

/-- A published category. -/
def catPub : Category := ⟨1, "nature", true⟩

/-- An unpublished category. -/
def catHidden : Category := ⟨2, "secret", false⟩

/-- A post by user 1 passing every visibility criterion at now = 10. -/
def postVisible : Post := ⟨1, 1, "hello", 5, true, catPub⟩

/-- An unpublished post by user 1. -/
def postHidden : Post := ⟨2, 1, "draft", 5, false, catPub⟩

/-- A scheduled post by user 1 whose pub_date is still in the future at
now = 10. -/
def postFuture : Post := ⟨3, 1, "soon", 100, true, catPub⟩

/-- A second visible post by user 1 sharing postVisible's pub_date. -/
def postTie : Post := ⟨4, 1, "tie", 5, true, catPub⟩

/-- A visible post by user 1 living in the unpublished category. -/
def postInHidden : Post := ⟨5, 1, "lost", 5, true, catHidden⟩

/-- The profile row of user 1. -/
def user1 : User := ⟨1, "alice"⟩

/-- A comment by user 1 on post 1. -/
def comment1 : Comment := ⟨7, 1, 1, "nice"⟩

/-- Sample form data for post updates. -/
def fdSample : PostFormData := ⟨"edited", 5, true, catPub⟩

/-- C1: every post shown to a non-owner viewer by the listing view, the
category view, or the profile view passes all three visibility criteria
(pub_date ≤ now, post published, category published), and each handler
applies exactly this conjunction as its visibility filter (the category
and profile handlers additionally scope to the category resp. the
profile owner's posts). -/
theorem C1_visibility_conjunction
    (db : List Post) (comments : List Comment) (now : Int) (p : Post)
    (cats : List Category) (slug : String) (c : Category)
    (hc : cats.find? (fun d => d.slug == slug && d.is_published) = some c)
    (users : List User) (uname : String) (u : User)
    (hu : users.find? (fun v => v.username == uname) = some u)
    (viewer : Viewer) (hnown : viewer.isUser u.id = false) :
    (p ∈ (postsListsMixin_get_queryset db comments now).map AnnotatedPost.post
      ↔ p ∈ db ∧ isVisible now p = true)
    ∧ (∀ qs, categoryListView_get_queryset db comments cats slug now = some qs →
        (p ∈ qs.map AnnotatedPost.post
          ↔ (p ∈ db ∧ isVisible now p = true) ∧ p.category = c))
    ∧ (∀ ps, userDetailView_posts users db comments viewer uname now = some ps →
        (p ∈ ps.map AnnotatedPost.post
          ↔ p ∈ db ∧ (p.author = u.id ∧ isVisible now p = true))) := by
  have hcq : categoryListView_get_queryset db comments cats slug now
      = some (order_by_desc (fun a => a.post.pub_date)
          ((postsListsMixin_get_queryset db comments now).filter
            (fun a => a.post.category == c))) := by
    unfold categoryListView_get_queryset
    rw [hc]
  have hpq : userDetailView_posts users db comments viewer uname now
      = some (order_by_desc (fun a => a.post.pub_date)
          (get_comment_count_queryset comments (db.filter (fun q =>
            q.author == u.id && q.is_published
              && decide (q.pub_date ≤ now) && q.category.is_published)))) := by
    unfold userDetailView_posts
    rw [hu]
    simp only [hnown, Bool.false_eq_true, if_false]
  refine ⟨mem_listing_iff db comments now p, ?_, ?_⟩
  · intro qs hq
    rw [hcq] at hq
    have hqs := Option.some.inj hq
    subst hqs
    simp only [List.mem_map, mem_order_by_desc, List.mem_filter, mem_mixin_ann]
    constructor
    · rintro ⟨a, ⟨⟨hdb, hvis, _⟩, hcat⟩, rfl⟩
      exact ⟨⟨hdb, hvis⟩, by simpa using hcat⟩
    · rintro ⟨⟨hdb, hvis⟩, hcat⟩
      exact ⟨⟨p, (comments.filter (fun d => d.postId == p.id)).length⟩,
        ⟨⟨hdb, hvis, rfl⟩, by simp [hcat]⟩, rfl⟩
  · intro ps hp
    rw [hpq] at hp
    have hps := Option.some.inj hp
    subst hps
    rw [mem_order_annotate]
    simp only [List.mem_filter, Bool.and_eq_true, decide_eq_true_eq,
      beq_iff_eq, isVisible]
    tauto

/-- C2: given that the requested post id resolves, the detail view
returns not-found for a non-author exactly when a visibility criterion
fails, returns the post for a non-author when all criteria hold, and
returns the post unconditionally for the author. -/
theorem C2_detail_bypass
    (db : List Post) (viewer : Viewer) (post_id : Nat) (now : Int)
    (post : Post)
    (hfind : db.find? (fun p => p.id == post_id) = some post) :
    (viewer.isUser post.author = false →
        (postDetailView_get_object db viewer post_id now = .notFound
          ↔ isVisible now post = false)
        ∧ (isVisible now post = true →
            postDetailView_get_object db viewer post_id now = .found post))
    ∧ (viewer.isUser post.author = true →
        postDetailView_get_object db viewer post_id now = .found post) := by
  rw [postDetailView_eq db viewer post_id now post hfind, detail_cond_eq]
  constructor
  · intro hna
    rw [hna]
    cases hv : isVisible now post <;> simp
  · intro ha
    rw [ha]
    simp

/-- Witness for C1 at a concrete database: user 2 ("bob") browses the
listing, the "nature" category and alice's profile at now = 10. -/
theorem C1_witness :
    (postVisible ∈ (postsListsMixin_get_queryset [postVisible, postHidden]
          [] 10).map AnnotatedPost.post
      ↔ postVisible ∈ [postVisible, postHidden]
        ∧ isVisible 10 postVisible = true)
    ∧ (∀ qs, categoryListView_get_queryset [postVisible, postHidden] []
          [catPub] "nature" 10 = some qs →
        (postVisible ∈ qs.map AnnotatedPost.post
          ↔ (postVisible ∈ [postVisible, postHidden]
              ∧ isVisible 10 postVisible = true)
            ∧ postVisible.category = catPub))
    ∧ (∀ ps, userDetailView_posts [user1] [postVisible, postHidden] []
          (.auth 2 "bob" false) "alice" 10 = some ps →
        (postVisible ∈ ps.map AnnotatedPost.post
          ↔ postVisible ∈ [postVisible, postHidden]
            ∧ (postVisible.author = user1.id
                ∧ isVisible 10 postVisible = true))) :=
  C1_visibility_conjunction [postVisible, postHidden] [] 10 postVisible
    [catPub] "nature" catPub (by decide) [user1] "alice" user1 (by decide)
    (.auth 2 "bob" false) (by decide)

/-- Witness for C2: user 2 requests post 3 (scheduled in the future)
at now = 10. -/
theorem C2_witness :
    ((Viewer.auth 2 "bob" false).isUser postFuture.author = false →
        (postDetailView_get_object [postFuture] (.auth 2 "bob" false) 3 10
            = .notFound
          ↔ isVisible 10 postFuture = false)
        ∧ (isVisible 10 postFuture = true →
            postDetailView_get_object [postFuture] (.auth 2 "bob" false) 3 10
              = .found postFuture))
    ∧ ((Viewer.auth 2 "bob" false).isUser postFuture.author = true →
        postDetailView_get_object [postFuture] (.auth 2 "bob" false) 3 10
          = .found postFuture) :=
  C2_detail_bypass [postFuture] (.auth 2 "bob" false) 3 10 postFuture
    (by decide)

/-- Counterexample to C3: the index listing handler takes no viewer at
all, so the author of an unpublished post does not see it in the
listing view, contradicting an author bypass in every post-displaying
view. Viewer.auth 1 "alice" false is postHidden's author, yet the
listing produced for any viewer omits postHidden. -/
theorem C3_counterexample :
    Viewer.isUser (.auth 1 "alice" false) postHidden.author = true
    ∧ postHidden ∉ (postsListsMixin_get_queryset [postHidden] []
        10).map AnnotatedPost.post := by
  decide

/-- C3 amended: the author bypass exists only in the detail view and in
the author's own profile view; the index listing and the category
listing apply the visibility filter to every viewer, the handlers not
consulting the viewer at all, so an author's own hidden posts are
absent there. -/
theorem C3_author_bypass
    (db : List Post) (comments : List Comment) (now : Int)
    (uid : Nat) (uname : String) (staff : Bool)
    (post_id : Nat) (post : Post)
    (hfind : db.find? (fun p => p.id == post_id) = some post)
    (hauthor : post.author = uid)
    (users : List User) (pname : String) (u : User)
    (hu : users.find? (fun v => v.username == pname) = some u)
    (huid : u.id = uid)
    (cats : List Category) (slug : String) (c : Category)
    (hc : cats.find? (fun d => d.slug == slug && d.is_published) = some c)
    (p : Post) :
    postDetailView_get_object db (.auth uid uname staff) post_id now
      = .found post
    ∧ (∀ ps, userDetailView_posts users db comments (.auth uid uname staff)
          pname now = some ps →
        (p ∈ ps.map AnnotatedPost.post ↔ p ∈ db ∧ p.author = uid))
    ∧ (p ∈ (postsListsMixin_get_queryset db comments now).map
          AnnotatedPost.post
        ↔ p ∈ db ∧ isVisible now p = true)
    ∧ (∀ qs, categoryListView_get_queryset db comments cats slug now
          = some qs →
        (p ∈ qs.map AnnotatedPost.post
          ↔ (p ∈ db ∧ isVisible now p = true) ∧ p.category = c)) := by
  have hpq : userDetailView_posts users db comments (.auth uid uname staff)
      pname now
      = some (order_by_desc (fun a => a.post.pub_date)
          (get_comment_count_queryset comments
            (db.filter (fun q => q.author == u.id)))) := by
    unfold userDetailView_posts
    rw [hu]
    simp [Viewer.isUser, huid]
  refine ⟨?_, ?_, mem_listing_iff db comments now p,
    fun qs hq => mem_category_iff db comments now cats slug c hc p qs hq⟩
  · rw [postDetailView_eq db _ post_id now post hfind]
    simp [Viewer.isUser, hauthor]
  · intro ps hp
    rw [hpq] at hp
    have hps := Option.some.inj hp
    subst hps
    rw [mem_order_annotate]
    simp [List.mem_filter, huid]

/-- Witness for C3 amended: alice (user 1) sees her unpublished post 2
in the detail view and on her own profile, while it stays out of the
index listing and of the "nature" category listing. -/
theorem C3_witness :
    (postDetailView_get_object [postHidden] (.auth 1 "alice" false) 2 10
        = .found postHidden)
    ∧ (∀ ps, userDetailView_posts [user1] [postHidden] []
          (.auth 1 "alice" false) "alice" 10 = some ps →
        (postHidden ∈ ps.map AnnotatedPost.post
          ↔ postHidden ∈ [postHidden] ∧ postHidden.author = 1))
    ∧ (postHidden ∈ (postsListsMixin_get_queryset [postHidden] []
          10).map AnnotatedPost.post
        ↔ postHidden ∈ [postHidden] ∧ isVisible 10 postHidden = true)
    ∧ (∀ qs, categoryListView_get_queryset [postHidden] [] [catPub]
          "nature" 10 = some qs →
        (postHidden ∈ qs.map AnnotatedPost.post
          ↔ (postHidden ∈ [postHidden] ∧ isVisible 10 postHidden = true)
            ∧ postHidden.category = catPub)) :=
  C3_author_bypass [postHidden] [] 10 1 "alice" false 2 postHidden
    (by decide) (by decide) [user1] "alice" user1 (by decide) (by decide)
    [catPub] "nature" catPub (by decide) postHidden

/-- Counterexample to C4: an authenticated non-author's update attempt
on an existing post is answered with a redirect to the post's detail
page, not with a 404 as the claim requires of every failure. -/
theorem C4_counterexample :
    (postUpdateView [postVisible] (.auth 2 "bob" false) 1 fdSample).1
        = ViewResult.redirect (Url.post_detail 1)
    ∧ (postUpdateView [postVisible] (.auth 2 "bob" false) 1 fdSample).1
        ≠ ViewResult.notFound := by
  decide

/-- C4 amended: unknown category/user/post/comment ids, hidden-post
access by a non-owner, and unauthorized post deletes and comment
updates and deletes surface as 404; the exception is the unauthorized
post update, which is surfaced as a redirect to the post's detail
page. -/
theorem C4_amended_responses
    (db : List Post) (comments : List Comment) (cats : List Category)
    (users : List User) (slug uname : String) (now : Int)
    (post_id comment_id : Nat) (fd : PostFormData) (text : String)
    (uid : Nat) (vname : String) (viewer : Viewer) :
    (cats.find? (fun c => c.slug == slug && c.is_published) = none →
        categoryListView_get_queryset db comments cats slug now = none)
    ∧ (users.find? (fun v => v.username == uname) = none →
        userDetailView_posts users db comments viewer uname now = none)
    ∧ (db.find? (fun p => p.id == post_id) = none →
        postDetailView_get_object db viewer post_id now = .notFound
        ∧ postUpdateView db (.auth uid vname false) post_id fd
            = (.notFound, db)
        ∧ postDeleteView db (.auth uid vname false) post_id
            = (.notFound, db))
    ∧ (comments.find? (fun d => d.id == comment_id) = none →
        commentUpdateView db comments (.auth uid vname false) post_id
            comment_id text = (.notFound, comments)
        ∧ commentDeleteView db comments (.auth uid vname false) post_id
            comment_id = (.notFound, comments))
    ∧ (∀ post, db.find? (fun p => p.id == post_id) = some post →
        viewer.isUser post.author = false → isVisible now post = false →
        postDetailView_get_object db viewer post_id now = .notFound)
    ∧ (∀ post, db.find? (fun p => p.id == post_id) = some post →
        post.author ≠ uid →
        postDeleteView db (.auth uid vname false) post_id
          = (.notFound, db))
    ∧ (∀ c, comments.find? (fun d => d.id == comment_id) = some c →
        c.author ≠ uid →
        commentUpdateView db comments (.auth uid vname false) post_id
            comment_id text = (.notFound, comments)
        ∧ commentDeleteView db comments (.auth uid vname false) post_id
            comment_id = (.notFound, comments))
    ∧ (∀ post, db.find? (fun p => p.id == post_id) = some post →
        post.author ≠ uid →
        postUpdateView db (.auth uid vname false) post_id fd
          = (.redirect (.post_detail post_id), db)) := by
  refine ⟨?_, ?_, ?_, ?_, ?_, ?_, ?_, ?_⟩
  · intro h
    unfold categoryListView_get_queryset
    rw [h]
  · intro h
    unfold userDetailView_posts
    rw [h]
  · intro h
    refine ⟨?_, ?_, ?_⟩
    · unfold postDetailView_get_object
      rw [h]
    · simp only [postUpdateView, h]
    · simp only [postDeleteView, h]
  · intro h
    have hobj : editCommentMixin_get_object comments uid comment_id
        = none := by
      unfold editCommentMixin_get_object
      rw [h]
    exact ⟨by simp only [commentUpdateView, hobj],
      by simp only [commentDeleteView, hobj]⟩
  · intro post hf hna hv
    rw [postDetailView_eq db viewer post_id now post hf, detail_cond_eq]
    simp [hna, hv]
  · intro post hf hne
    have hb : (post.author != uid) = true := by
      simpa [bne_iff_ne] using hne
    simp only [postDeleteView, hf, hb]
    simp
  · intro c hf hne
    have hobj : editCommentMixin_get_object comments uid comment_id
        = none := by
      unfold editCommentMixin_get_object
      rw [hf]
      have hb : (c.author != uid) = true := by
        simpa [bne_iff_ne] using hne
      simp [hb]
    exact ⟨by simp only [commentUpdateView, hobj],
      by simp only [commentDeleteView, hobj]⟩
  · intro post hf hne
    have hb : (post.author != uid) = true := by
      simpa [bne_iff_ne] using hne
    simp only [postUpdateView, hf, hb]
    simp

/-- Witness for C4 amended: an unknown category slug yields none and an
authenticated non-author's post update yields a redirect. -/
theorem C4_witness :
    categoryListView_get_queryset [postVisible] [] [catHidden] "nature" 10
        = none
    ∧ postUpdateView [postVisible] (.auth 2 "bob" false) 1 fdSample
        = (.redirect (.post_detail 1), [postVisible]) := by
  have h := C4_amended_responses [postVisible] [] [catHidden] [user1]
    "nature" "zoe" 10 1 1 fdSample "t" 2 "bob" (.auth 2 "bob" false)
  exact ⟨h.1 (by decide),
    h.2.2.2.2.2.2.2 postVisible (by decide) (by decide)⟩

/-- C5: an authenticated user who is not a comment's author gets 404
from both the comment update and the comment delete view, and the
stored comments are unchanged. -/
theorem C5_comment_guard
    (db : List Post) (comments : List Comment) (uid : Nat) (vname : String)
    (staff : Bool) (post_id comment_id : Nat) (text : String) (c : Comment)
    (hfind : comments.find? (fun d => d.id == comment_id) = some c)
    (hne : c.author ≠ uid) :
    commentUpdateView db comments (.auth uid vname staff) post_id
        comment_id text = (.notFound, comments)
    ∧ commentDeleteView db comments (.auth uid vname staff) post_id
        comment_id = (.notFound, comments) := by
  have hobj : editCommentMixin_get_object comments uid comment_id
      = none := by
    unfold editCommentMixin_get_object
    rw [hfind]
    have hb : (c.author != uid) = true := by
      simpa [bne_iff_ne] using hne
    simp [hb]
  constructor
  · simp only [commentUpdateView, hobj]
  · simp only [commentDeleteView, hobj]

/-- Witness for C5: bob (user 2) can neither edit nor delete alice's
comment 7. -/
theorem C5_witness :
    commentUpdateView [postVisible] [comment1] (.auth 2 "bob" false) 1 7 "x"
        = (.notFound, [comment1])
    ∧ commentDeleteView [postVisible] [comment1] (.auth 2 "bob" false) 1 7
        = (.notFound, [comment1]) :=
  C5_comment_guard [postVisible] [comment1] 2 "bob" false 1 7 "x" comment1
    (by decide) (by decide)

/-- C6: deleting a post requires authentication; an authenticated user
who is neither author nor staff gets 404; the author or any staff user
may delete; and an authenticated non-author's update attempt is
redirected instead of performed (the stored posts are unchanged). -/
theorem C6_delete_update_guards
    (db : List Post) (post_id : Nat) (fd : PostFormData)
    (uid : Nat) (vname : String) (staff : Bool) (post : Post) :
    postDeleteView db .anon post_id = (.redirectLogin, db)
    ∧ (db.find? (fun p => p.id == post_id) = some post →
        post.author ≠ uid →
        postDeleteView db (.auth uid vname false) post_id = (.notFound, db))
    ∧ (db.find? (fun p => p.id == post_id) = some post →
        (post.author = uid ∨ staff = true) →
        (postDeleteView db (.auth uid vname staff) post_id).1
          = .success (.profile vname))
    ∧ (db.find? (fun p => p.id == post_id) = some post →
        post.author ≠ uid →
        postUpdateView db (.auth uid vname staff) post_id fd
          = (.redirect (.post_detail post_id), db)) := by
  refine ⟨rfl, ?_, ?_, ?_⟩
  · intro hf hne
    have hb : (post.author != uid) = true := by
      simpa [bne_iff_ne] using hne
    simp only [postDeleteView, hf, hb]
    simp
  · intro hf hcase
    rcases hcase with hauth | hstaff
    · have hb : (post.author != uid) = false := by
        simp [hauth]
      simp only [postDeleteView, hf, hb]
      simp
    · simp only [postDeleteView, hf, hstaff]
      simp
  · intro hf hne
    have hb : (post.author != uid) = true := by
      simpa [bne_iff_ne] using hne
    simp only [postUpdateView, hf, hb]
    simp

/-- Witness for C6 on concrete data: anonymous delete redirects to
login, bob cannot delete alice's post, a staff user can, and bob's
update attempt is redirected with the database unchanged. -/
theorem C6_witness :
    postDeleteView [postVisible] .anon 1 = (.redirectLogin, [postVisible])
    ∧ postDeleteView [postVisible] (.auth 2 "bob" false) 1
        = (.notFound, [postVisible])
    ∧ (postDeleteView [postVisible] (.auth 2 "staff" true) 1).1
        = .success (.profile "staff")
    ∧ postUpdateView [postVisible] (.auth 2 "bob" false) 1 fdSample
        = (.redirect (.post_detail 1), [postVisible]) := by
  have h1 := C6_delete_update_guards [postVisible] 1 fdSample 2 "bob"
    false postVisible
  have h2 := C6_delete_update_guards [postVisible] 1 fdSample 2 "staff"
    true postVisible
  exact ⟨h1.1, h1.2.1 (by decide) (by decide),
    h2.2.2.1 (by decide) (Or.inr rfl),
    h1.2.2.2 (by decide) (by decide)⟩

/-- Counterexample to C7: two visible posts share pub_date 5, so the
listing's consecutive pub_dates are not strictly decreasing. -/
theorem C7_counterexample :
    ¬ List.Chain' (fun a b : AnnotatedPost => b.post.pub_date < a.post.pub_date)
        (postsListsMixin_get_queryset [postVisible, postTie] [] 10) := by
  intro hch
  have heval : postsListsMixin_get_queryset [postVisible, postTie] [] 10
      = [⟨postTie, 0⟩, ⟨postVisible, 0⟩] := by rfl
  rw [heval, List.chain'_cons] at hch
  have h5 : (5 : Int) < 5 := hch.1
  omega

/-- C7 amended: every listing (index, category, profile) is ordered by
non-increasing publication timestamp; consecutive posts satisfy
pub_date(earlier-listed) ≥ pub_date(later-listed), with ties allowed. -/
theorem C7_order_desc
    (db : List Post) (comments : List Comment) (now : Int)
    (cats : List Category) (slug : String) (users : List User)
    (uname : String) (viewer : Viewer) :
    List.Chain' (fun a b : AnnotatedPost => b.post.pub_date ≤ a.post.pub_date)
      (postsListsMixin_get_queryset db comments now)
    ∧ (∀ qs, categoryListView_get_queryset db comments cats slug now
          = some qs →
        List.Chain' (fun a b : AnnotatedPost =>
          b.post.pub_date ≤ a.post.pub_date) qs)
    ∧ (∀ ps, userDetailView_posts users db comments viewer uname now
          = some ps →
        List.Chain' (fun a b : AnnotatedPost =>
          b.post.pub_date ≤ a.post.pub_date) ps) := by
  refine ⟨chain_order_by_desc _ _, ?_, ?_⟩
  · intro qs hq
    unfold categoryListView_get_queryset at hq
    cases hfind : cats.find? (fun c => c.slug == slug && c.is_published) with
    | none =>
        rw [hfind] at hq
        exact Option.noConfusion hq
    | some c =>
        rw [hfind] at hq
        have hqs := Option.some.inj hq
        subst hqs
        exact chain_order_by_desc _ _
  · intro ps hp
    unfold userDetailView_posts at hp
    cases hfind : users.find? (fun v => v.username == uname) with
    | none =>
        rw [hfind] at hp
        exact Option.noConfusion hp
    | some u =>
        rw [hfind] at hp
        have hps := Option.some.inj hp
        subst hps
        exact chain_order_by_desc _ _

/-- Witness for C7 amended on the concrete two-post database with tied
pub_dates: the index listing and the concrete category page are
non-strictly descending. -/
theorem C7_witness :
    List.Chain' (fun a b : AnnotatedPost => b.post.pub_date ≤ a.post.pub_date)
      (postsListsMixin_get_queryset [postVisible, postTie] [] 10)
    ∧ List.Chain' (fun a b : AnnotatedPost =>
        b.post.pub_date ≤ a.post.pub_date)
        [⟨postVisible, 0⟩, ⟨postTie, 0⟩] := by
  have h := C7_order_desc [postVisible, postTie] [] 10 [catPub] "nature"
    [user1] "alice" .anon
  exact ⟨h.1, h.2.1 [⟨postVisible, 0⟩, ⟨postTie, 0⟩] (by decide)⟩

/-- C8: clean_pub_date makes a naive submitted timestamp aware in the
default timezone and passes an aware timestamp through unchanged, so
every cleaned timestamp is aware. -/
theorem C8_clean_pub_date_aware (tz : Int) (t : DateTime) :
    (is_aware t = false →
        clean_pub_date tz (some t) = some (make_aware t tz)
        ∧ is_aware (make_aware t tz) = true)
    ∧ (is_aware t = true → clean_pub_date tz (some t) = some t) := by
  constructor
  · intro h
    refine ⟨?_, rfl⟩
    show (if is_aware t = true then some t else some (make_aware t tz))
        = some (make_aware t tz)
    simp [h]
  · intro h
    show (if is_aware t = true then some t else some (make_aware t tz))
        = some t
    simp [h]

/-- Witness for C8: the naive timestamp 5 is stored as aware in
timezone 3, and the aware timestamp (7, offset 2) is unchanged. -/
theorem C8_witness :
    clean_pub_date 3 (some ⟨5, none⟩) = some (make_aware ⟨5, none⟩ 3)
    ∧ is_aware (make_aware ⟨5, none⟩ 3) = true
    ∧ clean_pub_date 3 (some ⟨7, some 2⟩) = some ⟨7, some 2⟩ :=
  ⟨((C8_clean_pub_date_aware 3 ⟨5, none⟩).1 rfl).1,
   ((C8_clean_pub_date_aware 3 ⟨5, none⟩).1 rfl).2,
   (C8_clean_pub_date_aware 3 ⟨7, some 2⟩).2 rfl⟩

/-- Counterexample to C9: a successful comment creation redirects to the
post's detail page, which is no user's profile page; and a staff user
deleting alice's post is redirected to the staff user's own profile,
not to the author alice's profile. -/
theorem C9_counterexample :
    (commentCreateView [postVisible] [] (.auth 2 "bob" false) 1 "hi" 9).1
        = ViewResult.success (Url.post_detail 1)
    ∧ Url.isProfile (Url.post_detail 1) = false
    ∧ (postDeleteView [postVisible] (.auth 2 "staff" true) 1).1
        = ViewResult.success (Url.profile "staff")
    ∧ Url.profile "staff" ≠ Url.profile "alice" := by
  decide

/-- C9 amended: successful post create/update/delete redirect to the
requesting user's profile (for create and update the requester is the
author; for delete a staff requester may differ), while successful
comment create/update/delete redirect to the detail page of the
comment's post. -/
theorem C9_success_urls
    (db : List Post) (comments : List Comment) (uid : Nat) (vname : String)
    (staff : Bool) (p0 : Post) (post_id : Nat) (fd : PostFormData)
    (comment_id new_id : Nat) (text : String) :
    (postCreateView db (.auth uid vname staff) p0).1
        = .success (.profile vname)
    ∧ (∀ post, db.find? (fun p => p.id == post_id) = some post →
        post.author = uid →
        (postUpdateView db (.auth uid vname staff) post_id fd).1
          = .success (.profile vname))
    ∧ (∀ post, db.find? (fun p => p.id == post_id) = some post →
        (post.author = uid ∨ staff = true) →
        (postDeleteView db (.auth uid vname staff) post_id).1
          = .success (.profile vname))
    ∧ (∀ post, commentMixin_get_post db post_id = some post →
        (commentCreateView db comments (.auth uid vname staff) post_id text
            new_id).1
          = .success (.post_detail post.id))
    ∧ (∀ c post, comments.find? (fun d => d.id == comment_id) = some c →
        c.author = uid → commentMixin_get_post db post_id = some post →
        (commentUpdateView db comments (.auth uid vname staff) post_id
            comment_id text).1
          = .success (.post_detail post.id)
        ∧ (commentDeleteView db comments (.auth uid vname staff) post_id
            comment_id).1
          = .success (.post_detail post.id)) := by
  refine ⟨rfl, ?_, ?_, ?_, ?_⟩
  · intro post hf hauth
    have hb : (post.author != uid) = false := by simp [hauth]
    simp only [postUpdateView, hf, hb]
    simp
  · intro post hf hcase
    rcases hcase with hauth | hstaff
    · have hb : (post.author != uid) = false := by simp [hauth]
      simp only [postDeleteView, hf, hb]
      simp
    · simp only [postDeleteView, hf, hstaff]
      simp
  · intro post hf
    simp only [commentCreateView, hf]
  · intro c post hfc hauth hfp
    have hobj : editCommentMixin_get_object comments uid comment_id
        = some c := by
      unfold editCommentMixin_get_object
      rw [hfc]
      have hb : (c.author != uid) = false := by simp [hauth]
      simp [hb]
    constructor
    · simp only [commentUpdateView, hobj, hfp]
    · simp only [commentDeleteView, hobj, hfp]

/-- Witness for C9 amended on concrete data: alice updates her post and
lands on her profile; bob comments on post 1 and lands on the post's
detail page; alice edits her comment 7 and lands on the post's detail
page. -/
theorem C9_witness :
    (postUpdateView [postVisible] (.auth 1 "alice" false) 1 fdSample).1
        = .success (.profile "alice")
    ∧ (commentCreateView [postVisible] [] (.auth 2 "bob" false) 1 "hi" 9).1
        = .success (.post_detail postVisible.id)
    ∧ (commentUpdateView [postVisible] [comment1] (.auth 1 "alice" false) 1
          7 "x").1
        = .success (.post_detail postVisible.id) := by
  have h := C9_success_urls [postVisible] [comment1] 1 "alice" false
    postVisible 1 fdSample 7 9 "hi"
  have h2 := C9_success_urls [postVisible] [] 2 "bob" false postVisible 1
    fdSample 7 9 "hi"
  exact ⟨h.2.1 postVisible (by decide) (by decide),
    h2.2.2.2.1 postVisible (by decide),
    (h.2.2.2.2 comment1 postVisible (by decide) (by decide) (by decide)).1⟩

/-- C10: the category view serves only published categories: when every
category with the requested slug is unpublished the view 404s (the
handler never consults the viewer, so this holds also for an author of
posts in that category), and any category it does resolve is
published. -/
theorem C10_unpublished_category
    (db : List Post) (comments : List Comment) (cats : List Category)
    (slug : String) (now : Int) :
    ((∀ c ∈ cats, c.slug = slug → c.is_published = false) →
        categoryListView_get_queryset db comments cats slug now = none)
    ∧ (∀ c, cats.find? (fun d => d.slug == slug && d.is_published)
          = some c →
        c.is_published = true) := by
  constructor
  · intro h
    have hfind : cats.find? (fun d => d.slug == slug && d.is_published)
        = none := by
      rw [List.find?_eq_none]
      intro c hc
      simp only [Bool.and_eq_true, beq_iff_eq, not_and]
      intro hslug
      simp [h c hc hslug]
    unfold categoryListView_get_queryset
    rw [hfind]
  · intro c hfind
    have := List.find?_some hfind
    simp only [Bool.and_eq_true] at this
    exact this.2

/-- Witness for C10: the "secret" category is unpublished, so its page
404s even though it exists and holds a visible post by alice. -/
theorem C10_witness :
    categoryListView_get_queryset [postInHidden] [] [catHidden] "secret" 10
        = none :=
  (C10_unpublished_category [postInHidden] [] [catHidden] "secret" 10).1
    (by decide)

end Blogicum
